import Mathlib

/-!
Formal model of gaphor's transaction module (`gaphor/transaction.py`) and of the
gesture transaction adapter (`gaphor/diagram/tools/txtool.py`).

Modelling decisions (a shallow embedding of the python code):

* Python object identity is modelled by natural-number identities allocated by a
  counter `nextId` carried in the global state; `Transaction.__init__` allocates
  a fresh identity, mirroring the fact that a newly constructed python object is
  distinct (`is not`) from every live object.
* The per-instance mutable attribute `_need_rollback` and the per-instance
  attribute `event_manager` are maps from identity to value carried in the
  global state, so that mutating an instance through one reference (as
  `mark_rollback` does for every entry of the stack) is visible through every
  other reference to the same instance.
* The class attribute `Transaction._stack` is a python list used only through
  `append` and `pop` (at the end); it is modelled as a `List Nat` of identities
  with the most recently appended element at the HEAD.
* `event_manager.handle(event)` is modelled by recording the delivered event in
  an output trace; an event records the sink (`event_manager`) it was delivered
  to and its kind (`TransactionBegin` / `TransactionCommit` /
  `TransactionRollback`).
* Raising `TransactionError` is an `Except.error` carrying the error kind and
  the global state as it stands when the exception propagates out of the
  method (in `_close` the mismatched pop re-appends the popped entry before
  raising, which is reflected literally in the error state).
-/

namespace Gaphor

/-- Kinds of the three lifecycle events emitted by the transaction module
(`TransactionBegin`, `TransactionCommit`, `TransactionRollback` in
`gaphor.event`). They carry no payload. -/
inductive EventKind where
  | TransactionBegin
  | TransactionCommit
  | TransactionRollback
deriving DecidableEq, Repr

/-- One delivered notification: the sink (`event_manager`) it was handed to and
the kind of event. -/
structure Event where
  sink : Nat
  kind : EventKind
deriving DecidableEq, Repr

/-- The two `TransactionError` cases raised by `Transaction._close`:
"No Transaction on stack." and
"Transaction on stack is not the transaction being closed.". -/
inductive TransactionError where
  | noTransactionOnStack
  | notTheTransactionBeingClosed
deriving DecidableEq, Repr

/-- The global mutable state of the transaction module: the class attribute
`Transaction._stack` (identities, most recently appended first), the
per-instance `_need_rollback` flags and `event_manager` references (keyed by
identity), and the fresh-identity counter. -/
structure State where
  stack : List Nat
  needRollback : Nat → Bool
  eventManager : Nat → Nat
  nextId : Nat

namespace Transaction

/-- Transaction.__init__(self, event_manager): store the event manager, set
`self._need_rollback = False`, emit `TransactionBegin` when the stack is empty
(the test is evaluated BEFORE the push, mirroring source order), then append
`self` to the stack. Returns the identity of the new instance, the emitted
events and the new state. -/
def init (event_manager : Nat) (s : State) : Nat × List Event × State :=
  let t := s.nextId
  let s1 : State :=
    { s with
      needRollback := fun x => if x = t then false else s.needRollback x
      eventManager := fun x => if x = t then event_manager else s.eventManager x
      nextId := s.nextId + 1 }
  let evs : List Event :=
    if s1.stack = [] then [⟨event_manager, EventKind.TransactionBegin⟩] else []
  (t, evs, { s1 with stack := t :: s1.stack })

/-- Transaction._close(self): pop the stack; raise `TransactionError` when the
stack is empty, or re-append the popped entry and raise when it is not `self`.
The error carries the state as it stands when the exception propagates. -/
def _close (t : Nat) (s : State) : Except (TransactionError × State) State :=
  match s.stack with
  | [] => Except.error (TransactionError.noTransactionOnStack, s)
  | last :: rest =>
      if last = t then Except.ok { s with stack := rest }
      else
        Except.error (TransactionError.notTheTransactionBeingClosed,
          { s with stack := last :: rest })

/-- Transaction.commit(self): `_close`, then if the stack is empty emit
`TransactionRollback` when `self._need_rollback` is set and `TransactionCommit`
otherwise. -/
def commit (t : Nat) (s : State) :
    Except (TransactionError × State) (List Event × State) :=
  match Transaction._close t s with
  | Except.error e => Except.error e
  | Except.ok s1 =>
      if s1.stack = [] then
        if s1.needRollback t then
          Except.ok ([⟨s1.eventManager t, EventKind.TransactionRollback⟩], s1)
        else
          Except.ok ([⟨s1.eventManager t, EventKind.TransactionCommit⟩], s1)
      else Except.ok ([], s1)

/-- Transaction.mark_rollback(self): set `tx._need_rollback = True` for every
`tx` on the stack. The python method reads only the class attribute `_stack`,
never `self`, so the model takes no transaction argument. -/
def mark_rollback (s : State) : State :=
  { s with needRollback := fun x => if x ∈ s.stack then true else s.needRollback x }

/-- Transaction.rollback(self): `self.mark_rollback()` followed by
`self.commit()`. -/
def rollback (t : Nat) (s : State) :
    Except (TransactionError × State) (List Event × State) :=
  Transaction.commit t (Transaction.mark_rollback s)

/-- Transaction.__exit__(self, exc_type, exc_val, exc_tb): when an exception is
active and `self._need_rollback` is not yet set, log and `mark_rollback`; in
every case call `commit` once. Returns the log messages and the commit
outcome. -/
def exitTx (excType : Bool) (t : Nat) (s : State) :
    List String × Except (TransactionError × State) (List Event × State) :=
  if excType = true ∧ s.needRollback t = false then
    (["Transaction terminated due to an exception, performing a rollback"],
      Transaction.commit t (Transaction.mark_rollback s))
  else
    ([], Transaction.commit t s)

end Transaction

/-- Open `n` nested transactions in sequence against the sink `em`: the list of
identities in creation order, the concatenated events of all the
constructions, and the final state. -/
def openN (em : Nat) : Nat → State → List Nat × List Event × State
  | 0, s => ([], [], s)
  | n + 1, s =>
      let r := Transaction.init em s
      let r2 := openN em n r.2.2
      (r.1 :: r2.1, r.2.1 ++ r2.2.1, r2.2.2)

/-- Close one transaction: `rollback` when the flag is `true`, `commit`
otherwise. -/
def closeOne (c : Bool) (t : Nat) (s : State) :
    Except (TransactionError × State) (List Event × State) :=
  if c then Transaction.rollback t s else Transaction.commit t s

/-- Close a sequence of transactions in the given order, each by `commit` or
`rollback` according to its flag, concatenating the emitted events; the first
`TransactionError` aborts the run. -/
def closeAll : List (Bool × Nat) → State →
    Except (TransactionError × State) (List Event × State)
  | [], s => Except.ok ([], s)
  | p :: ps, s =>
      match closeOne p.1 p.2 s with
      | Except.error e => Except.error e
      | Except.ok r =>
          match closeAll ps r.2 with
          | Except.error e => Except.error e
          | Except.ok r2 => Except.ok (r.1 ++ r2.1, r2.2)

namespace SubscribersHandler

/-- _SubscribersHandler.add: `self._subscribers.add(handler)`. The python set
is modelled as a duplicate-free list in one fixed iteration order; inserting a
present element is a no-op. -/
def add (h : List Nat) (o : Nat) : List Nat :=
  if o ∈ h then h else h ++ [o]

/-- _SubscribersHandler.discard: `self._subscribers.discard(handler)`; removing
an absent element is a no-op, never an error. -/
def discard (h : List Nat) (o : Nat) : List Nat :=
  h.filter (fun x => x ≠ o)

/-- _SubscribersHandler.handle: `for o in self._subscribers: o(event)`.
Listener behaviour is abstracted by `raises`: listener `o` raises an exception
iff `raises o = true`. Returns the listeners actually invoked, in iteration
order, and the listener whose exception aborted the loop, if any (the
exception propagates out of `handle` unhandled). -/
def handle (raises : Nat → Bool) : List Nat → List Nat × Option Nat
  | [] => ([], none)
  | o :: rest =>
      if raises o then ([o], some o)
      else
        let r := handle raises rest
        (o :: r.1, r.2)

end SubscribersHandler

/-- TxData (from `gaphor/diagram/tools/txtool.py`): the list of transactions
begun by the gesture adapter, in creation order (python appends and pops at the
end). -/
structure TxData where
  txs : List Nat
deriving DecidableEq, Repr

namespace TxData

/-- TxData.begin: append `Transaction(self.event_manager)` to `self.txs`. -/
def begin (d : TxData) (event_manager : Nat) (s : State) :
    TxData × List Event × State :=
  let r := Transaction.init event_manager s
  (⟨d.txs ++ [r.1]⟩, r.2.1, r.2.2)

/-- TxData.commit: `assert self.txs; tx = self.txs.pop(); tx.commit()`.
`none` models the assertion failing on an empty `txs`, in which case
`Transaction.commit` is never reached. -/
def commit (d : TxData) (s : State) :
    Option (TxData × Except (TransactionError × State) (List Event × State)) :=
  match d.txs.getLast? with
  | none => none
  | some t => some (⟨d.txs.dropLast⟩, Transaction.commit t s)

end TxData

/-- One gesture signal handled by the adapter: `on_begin` calls
`tx_data.begin()`, `on_end` calls `tx_data.commit()`. -/
inductive TxOp where
  | onBegin (event_manager : Nat)
  | onEnd
deriving DecidableEq, Repr

/-- Outcome of a run of gesture signals. -/
inductive TxRunResult where
  | ok (d : TxData) (s : State)
  | assertionError
  | txError (e : TransactionError)

/-- Run a sequence of gesture signals through a `TxData`, stopping at the first
assertion failure or `TransactionError`. -/
def runTxOps : List TxOp → TxData → State → TxRunResult
  | [], d, s => TxRunResult.ok d s
  | TxOp.onBegin em :: ops, d, s =>
      runTxOps ops (TxData.begin d em s).1 (TxData.begin d em s).2.2
  | TxOp.onEnd :: ops, d, s =>
      match TxData.commit d s with
      | none => TxRunResult.assertionError
      | some (_, Except.error e) => TxRunResult.txError e.1
      | some (d1, Except.ok r) => runTxOps ops d1 r.2

/-- An initial state: empty stack, all flags clear, no sink recorded, counter
at zero. Used by the concrete witnesses. -/
def S0 : State :=
  { stack := [], needRollback := fun _ => false, eventManager := fun _ => 0,
    nextId := 0 }

/-- A concrete one-element-stack state used by several witnesses. -/
def cS7 : State :=
  { stack := [0], needRollback := fun _ => false, eventManager := fun _ => 5,
    nextId := 1 }

/-- A concrete two-element-stack state used by the C3 witness. -/
def cS3 : State :=
  { stack := [2, 5], needRollback := fun _ => false, eventManager := fun _ => 9,
    nextId := 6 }

/-- State after opening transaction 0 against sink 7 from `S0`. -/
def s5a : State := (Transaction.init 7 S0).2.2

/-- State after also opening transaction 1. -/
def s5b : State := (Transaction.init 7 s5a).2.2

/-- State after committing transaction 1 again (stack back to just 0). -/
def s5c : State := { s5b with stack := [0] }

/-! Basic lemmas about `_close` and `commit`. -/

theorem close_of_nil (t : Nat) (s : State) (h : s.stack = []) :
    Transaction._close t s
      = Except.error (TransactionError.noTransactionOnStack, s) := by
  unfold Transaction._close
  rw [h]

theorem close_of_top (t : Nat) (rest : List Nat) (s : State)
    (h : s.stack = t :: rest) :
    Transaction._close t s = Except.ok { s with stack := rest } := by
  unfold Transaction._close
  rw [h]
  simp

theorem close_of_other (t last : Nat) (rest : List Nat) (s : State)
    (h : s.stack = last :: rest) (hne : last ≠ t) :
    Transaction._close t s
      = Except.error (TransactionError.notTheTransactionBeingClosed, s) := by
  unfold Transaction._close
  rw [h]
  simp only [hne, if_false, ite_false, Except.error.injEq, Prod.mk.injEq,
    true_and]
  rw [← h]

theorem commit_of_nil (t : Nat) (s : State) (h : s.stack = []) :
    Transaction.commit t s
      = Except.error (TransactionError.noTransactionOnStack, s) := by
  unfold Transaction.commit
  rw [close_of_nil t s h]

theorem commit_of_other (t last : Nat) (rest : List Nat) (s : State)
    (h : s.stack = last :: rest) (hne : last ≠ t) :
    Transaction.commit t s
      = Except.error (TransactionError.notTheTransactionBeingClosed, s) := by
  unfold Transaction.commit
  rw [close_of_other t last rest s h hne]

theorem commit_of_top_outermost (t : Nat) (s : State) (h : s.stack = [t]) :
    Transaction.commit t s
      = Except.ok ([⟨s.eventManager t,
          if s.needRollback t then EventKind.TransactionRollback
          else EventKind.TransactionCommit⟩], { s with stack := [] }) := by
  unfold Transaction.commit
  rw [close_of_top t [] s h]
  cases hnr : s.needRollback t <;> simp [hnr]

theorem commit_of_top_inner (t : Nat) (rest : List Nat) (s : State)
    (h : s.stack = t :: rest) (hr : rest ≠ []) :
    Transaction.commit t s = Except.ok ([], { s with stack := rest }) := by
  unfold Transaction.commit
  rw [close_of_top t rest s h]
  simp [hr]

/-- Inversion of a successful `commit`: exactly the top of the stack was
popped, no other component of the state changed, and the events are a single
terminal event at a stack-emptying close and nothing otherwise. -/
theorem commit_ok_inv (t : Nat) (s : State) (evs : List Event) (s2 : State)
    (h : Transaction.commit t s = Except.ok (evs, s2)) :
    s.stack = t :: s2.stack ∧ s2.needRollback = s.needRollback ∧
    s2.eventManager = s.eventManager ∧ s2.nextId = s.nextId ∧
    (s2.stack = [] → evs = [⟨s.eventManager t,
        if s.needRollback t then EventKind.TransactionRollback
        else EventKind.TransactionCommit⟩]) ∧
    (s2.stack ≠ [] → evs = []) := by
  rcases hst : s.stack with _ | ⟨last, rest⟩
  · rw [commit_of_nil t s hst] at h
    exact absurd h (by simp)
  · by_cases hlt : last = t
    · subst hlt
      by_cases hre : rest = []
      · subst hre
        rw [commit_of_top_outermost last s hst] at h
        rw [Except.ok.injEq, Prod.mk.injEq] at h
        rcases h with ⟨hevs, hs2⟩
        subst hs2
        refine ⟨by simp, rfl, rfl, rfl, fun _ => hevs.symm, ?_⟩
        intro hc
        exact absurd rfl hc
      · rw [commit_of_top_inner last rest s hst hre] at h
        rw [Except.ok.injEq, Prod.mk.injEq] at h
        rcases h with ⟨hevs, hs2⟩
        subst hs2
        refine ⟨by simp, rfl, rfl, rfl, ?_, fun _ => hevs.symm⟩
        intro hc
        exact absurd (by simpa using hc) hre
    · rw [commit_of_other t last rest s hst hlt] at h
      exact absurd h (by simp)

/-- Inversion of a failing `commit`: the state carried by the error is the
original state (the mismatched pop was pushed back), and the error kind is
determined by whether the stack was empty. -/
theorem commit_error_inv (t : Nat) (s : State) (e : TransactionError)
    (s2 : State) (h : Transaction.commit t s = Except.error (e, s2)) :
    s2 = s ∧
    ((e = TransactionError.noTransactionOnStack ∧ s.stack = []) ∨
     (e = TransactionError.notTheTransactionBeingClosed ∧
      ∃ last rest, s.stack = last :: rest ∧ last ≠ t)) := by
  rcases hst : s.stack with _ | ⟨last, rest⟩
  · rw [commit_of_nil t s hst] at h
    rw [Except.error.injEq, Prod.mk.injEq] at h
    exact ⟨h.2.symm, Or.inl ⟨h.1.symm, rfl⟩⟩
  · by_cases hlt : last = t
    · subst hlt
      by_cases hre : rest = []
      · subst hre
        rw [commit_of_top_outermost last s hst] at h
        exact absurd h (by simp)
      · rw [commit_of_top_inner last rest s hst hre] at h
        exact absurd h (by simp)
    · rw [commit_of_other t last rest s hst hlt] at h
      rw [Except.error.injEq, Prod.mk.injEq] at h
      exact ⟨h.2.symm, Or.inr ⟨h.1.symm, last, rest, rfl, hlt⟩⟩

/-! Claims about construction, closing, `mark_rollback`, `commit` framing and
`__exit__`. -/

/-- C4: constructing a `Transaction` delivers a `TransactionBegin` notification
to its sink exactly when the process-wide stack is empty at construction time;
the emptiness test is evaluated on the pre-push stack (delivery happens before
the push), and construction otherwise only records the fresh instance (flag
cleared, sink stored) and pushes it, leaving every other instance's attributes
unchanged. -/
theorem init_emits_begin_iff_stack_empty (em : Nat) (s : State) :
    (Transaction.init em s).1 = s.nextId ∧
    (Transaction.init em s).2.1
      = (if s.stack = [] then [⟨em, EventKind.TransactionBegin⟩] else []) ∧
    (Transaction.init em s).2.2.stack = s.nextId :: s.stack ∧
    (Transaction.init em s).2.2.needRollback s.nextId = false ∧
    (Transaction.init em s).2.2.eventManager s.nextId = em ∧
    (Transaction.init em s).2.2.nextId = s.nextId + 1 ∧
    (∀ x, x ≠ s.nextId →
      (Transaction.init em s).2.2.needRollback x = s.needRollback x ∧
      (Transaction.init em s).2.2.eventManager x = s.eventManager x) := by
  refine ⟨rfl, rfl, rfl, by simp [Transaction.init], by simp [Transaction.init],
    rfl, ?_⟩
  intro x hx
  constructor <;> simp [Transaction.init, hx]

/-- Witness for `init_emits_begin_iff_stack_empty` at a concrete instance. -/
theorem init_emits_begin_iff_stack_empty_witness :
    (5 : Nat) ≠ S0.nextId ∧
    ((Transaction.init 3 S0).2.2.needRollback 5 = S0.needRollback 5 ∧
     (Transaction.init 3 S0).2.2.eventManager 5 = S0.eventManager 5) :=
  ⟨by decide, (init_emits_begin_iff_stack_empty 3 S0).2.2.2.2.2.2 5 (by decide)⟩

/-- C7: a `commit` never modifies any `_need_rollback` flag: on success and on
error alike, the resulting state's whole flag map equals the original one. -/
theorem commit_preserves_needRollback (t : Nat) (s : State) :
    (∀ evs s2, Transaction.commit t s = Except.ok (evs, s2) →
      s2.needRollback = s.needRollback) ∧
    (∀ e s2, Transaction.commit t s = Except.error (e, s2) →
      s2.needRollback = s.needRollback) := by
  constructor
  · intro evs s2 h
    exact (commit_ok_inv t s evs s2 h).2.1
  · intro e s2 h
    rw [(commit_error_inv t s e s2 h).1]


/-- Witness for `commit_preserves_needRollback` at a concrete instance. -/
theorem commit_preserves_needRollback_witness :
    Transaction.commit 0 cS7
        = Except.ok ([⟨5, EventKind.TransactionCommit⟩], { cS7 with stack := [] }) ∧
    ({ cS7 with stack := ([] : List Nat) } : State).needRollback
        = cS7.needRollback :=
  ⟨rfl, (commit_preserves_needRollback 0 cS7).1
    [⟨5, EventKind.TransactionCommit⟩] { cS7 with stack := [] } rfl⟩

/-- C3: closing (via `commit` or `rollback`) fails with a `TransactionError`
in exactly two cases — empty stack at pop time, and popped entry not the
transaction being closed.  In the mismatch case the popped entry is pushed
back, so the error carries a state whose stack is unchanged, and a subsequent
close of the rightful top succeeds.  When the top is the transaction being
closed, the close succeeds. -/
theorem close_fails_exactly_on_empty_or_mismatch (t : Nat) (s : State) :
    (s.stack = [] →
      Transaction.commit t s
          = Except.error (TransactionError.noTransactionOnStack, s) ∧
      Transaction.rollback t s
          = Except.error (TransactionError.noTransactionOnStack,
              Transaction.mark_rollback s)) ∧
    (∀ last rest, s.stack = last :: rest → last ≠ t →
      Transaction.commit t s
          = Except.error (TransactionError.notTheTransactionBeingClosed, s) ∧
      Transaction.rollback t s
          = Except.error (TransactionError.notTheTransactionBeingClosed,
              Transaction.mark_rollback s) ∧
      (Transaction.mark_rollback s).stack = s.stack ∧
      ∃ evs s2, Transaction.commit last s = Except.ok (evs, s2)) ∧
    (∀ rest, s.stack = t :: rest →
      ∃ evs s2, Transaction.commit t s = Except.ok (evs, s2)) := by
  refine ⟨?_, ?_, ?_⟩
  · intro h
    exact ⟨commit_of_nil t s h, commit_of_nil t (Transaction.mark_rollback s) h⟩
  · intro last rest h hne
    refine ⟨commit_of_other t last rest s h hne,
      commit_of_other t last rest (Transaction.mark_rollback s) h hne, rfl, ?_⟩
    by_cases hre : rest = []
    · subst hre
      exact ⟨_, _, commit_of_top_outermost last s h⟩
    · exact ⟨_, _, commit_of_top_inner last rest s h hre⟩
  · intro rest h
    by_cases hre : rest = []
    · subst hre
      exact ⟨_, _, commit_of_top_outermost t s h⟩
    · exact ⟨_, _, commit_of_top_inner t rest s h hre⟩


/-- Witness for `close_fails_exactly_on_empty_or_mismatch`: committing a
transaction that is not the top errors and leaves the rightful top closable. -/
theorem close_fails_exactly_on_empty_or_mismatch_witness :
    cS3.stack = 2 :: [5] ∧ (2 : Nat) ≠ 7 ∧
    (Transaction.commit 7 cS3
        = Except.error (TransactionError.notTheTransactionBeingClosed, cS3) ∧
     Transaction.rollback 7 cS3
        = Except.error (TransactionError.notTheTransactionBeingClosed,
            Transaction.mark_rollback cS3) ∧
     (Transaction.mark_rollback cS3).stack = cS3.stack ∧
     ∃ evs s2, Transaction.commit 2 cS3 = Except.ok (evs, s2)) :=
  ⟨rfl, by decide,
    (close_fails_exactly_on_empty_or_mismatch 7 cS3).2.1 2 [5] rfl (by decide)⟩

/-- C5 (amended): `mark_rollback` sets `_need_rollback` on exactly the
transactions currently on the stack (the caller included only when it is still
on the stack), changes nothing else, has no error conditions and is
idempotent. -/
theorem mark_rollback_sets_exactly_stack_flags (s : State) (x : Nat) :
    ((Transaction.mark_rollback s).needRollback x
        = if x ∈ s.stack then true else s.needRollback x) ∧
    (Transaction.mark_rollback s).stack = s.stack ∧
    (Transaction.mark_rollback s).eventManager = s.eventManager ∧
    (Transaction.mark_rollback s).nextId = s.nextId ∧
    Transaction.mark_rollback (Transaction.mark_rollback s)
        = Transaction.mark_rollback s := by
  cases s with
  | mk st nr em nx =>
    refine ⟨rfl, rfl, rfl, rfl, ?_⟩
    simp only [Transaction.mark_rollback]
    congr 1
    funext y
    by_cases hy : y ∈ st <;> simp [hy]


/-- C5 counterexample: after transaction 1 is (legitimately) committed and thus
off the stack, `mark_rollback` does NOT set `_need_rollback` on it — the method
touches only stack entries, contradicting the claim that the caller itself is
always marked regardless of stack membership. -/
theorem mark_rollback_off_stack_counterexample :
    Transaction.commit 1 s5b = Except.ok ([], s5c) ∧
    (1 : Nat) ∉ s5c.stack ∧
    (Transaction.mark_rollback s5c).needRollback 1 = false ∧
    (Transaction.mark_rollback s5c).needRollback 0 = true :=
  ⟨rfl, by decide, by decide, by decide⟩

/-- C6: on exit of a transaction's managed scope, an error exit with the flag
still clear first logs, then marks the whole chain for rollback (the
transaction itself included whenever it is still on the stack); every exit
path performs exactly one `commit`, which pops exactly this transaction. -/
theorem exit_marks_and_commits_once (excType : Bool) (t : Nat) (s : State) :
    (excType = true ∧ s.needRollback t = false →
      Transaction.exitTx excType t s
          = (["Transaction terminated due to an exception, performing a rollback"],
              Transaction.commit t (Transaction.mark_rollback s)) ∧
      (t ∈ s.stack → (Transaction.mark_rollback s).needRollback t = true)) ∧
    (¬(excType = true ∧ s.needRollback t = false) →
      Transaction.exitTx excType t s = ([], Transaction.commit t s)) ∧
    (∀ evs s2, (Transaction.exitTx excType t s).2 = Except.ok (evs, s2) →
      s.stack = t :: s2.stack) := by
  refine ⟨?_, ?_, ?_⟩
  · intro h
    refine ⟨by simp [Transaction.exitTx, h], ?_⟩
    intro ht
    simp [Transaction.mark_rollback, ht]
  · intro h
    simp [Transaction.exitTx, h]
  · intro evs s2 h
    unfold Transaction.exitTx at h
    by_cases hc : excType = true ∧ s.needRollback t = false
    · rw [if_pos hc] at h
      exact (commit_ok_inv t (Transaction.mark_rollback s) evs s2 h).1
    · rw [if_neg hc] at h
      exact (commit_ok_inv t s evs s2 h).1

/-- Witness for `exit_marks_and_commits_once`: an error exit of an unmarked
transaction logs, marks and commits. -/
theorem exit_marks_and_commits_once_witness :
    (true = true ∧ cS7.needRollback 0 = false) ∧
    (Transaction.exitTx true 0 cS7
        = (["Transaction terminated due to an exception, performing a rollback"],
            Transaction.commit 0 (Transaction.mark_rollback cS7)) ∧
     (0 ∈ cS7.stack → (Transaction.mark_rollback cS7).needRollback 0 = true)) :=
  ⟨by decide, (exit_marks_and_commits_once true 0 cS7).1 ⟨rfl, rfl⟩⟩

/-! Lemmas about `openN`: identities, stack shape, sinks and emitted events of
a sequence of nested constructions. -/

theorem openN_ids (em n : Nat) : ∀ s : State,
    (openN em n s).1 = List.range' s.nextId n := by
  induction n with
  | zero => intro s; rfl
  | succ m ih =>
    intro s
    simp only [openN]
    rw [List.range'_succ, ih]
    rfl

theorem openN_length (em n : Nat) (s : State) : (openN em n s).1.length = n := by
  rw [openN_ids]
  exact List.length_range' ..

theorem openN_stack (em n : Nat) : ∀ s : State,
    (openN em n s).2.2.stack = (openN em n s).1.reverse ++ s.stack := by
  induction n with
  | zero => intro s; rfl
  | succ m ih =>
    intro s
    simp only [openN]
    rw [ih]
    simp [Transaction.init]

theorem openN_eventManager (em n : Nat) : ∀ (s : State) (x : Nat),
    (openN em n s).2.2.eventManager x
      = if x ∈ (openN em n s).1 then em else s.eventManager x := by
  induction n with
  | zero => intro s x; simp [openN]
  | succ m ih =>
    intro s x
    simp only [openN]
    rw [ih]
    by_cases hx : x ∈ (openN em m (Transaction.init em s).2.2).1
    · simp [hx]
    · by_cases hx0 : x = s.nextId <;>
        simp [hx, hx0, Transaction.init]

theorem openN_events_of_nonempty (em n : Nat) : ∀ s : State, s.stack ≠ [] →
    (openN em n s).2.1 = [] := by
  induction n with
  | zero => intro s _; rfl
  | succ m ih =>
    intro s hs
    simp only [openN]
    rw [ih (Transaction.init em s).2.2 (by simp [Transaction.init])]
    simp [Transaction.init, hs]

theorem openN_events_of_empty (em n : Nat) (s : State) (hs : s.stack = [])
    (hn : n ≠ 0) :
    (openN em n s).2.1 = [⟨em, EventKind.TransactionBegin⟩] := by
  cases n with
  | zero => exact absurd rfl hn
  | succ m =>
    simp only [openN]
    rw [openN_events_of_nonempty em m (Transaction.init em s).2.2
      (by simp [Transaction.init])]
    simp [Transaction.init, hs]

theorem closeOne_false (t : Nat) (s : State) :
    closeOne false t s = Transaction.commit t s := rfl

theorem closeOne_true (t : Nat) (s : State) :
    closeOne true t s = Transaction.rollback t s := rfl

/-- Unfolding one step of `closeAll` when both the head close and the
remaining closes succeed. -/
theorem closeAll_step (p : Bool × Nat) (ps : List (Bool × Nat)) (s s1 : State)
    (evs1 evs2 : List Event) (s2 : State)
    (h1 : closeOne p.1 p.2 s = Except.ok (evs1, s1))
    (h2 : closeAll ps s1 = Except.ok (evs2, s2)) :
    closeAll (p :: ps) s = Except.ok (evs1 ++ evs2, s2) := by
  show (match closeOne p.1 p.2 s with
    | Except.error e => Except.error e
    | Except.ok r =>
        match closeAll ps r.2 with
        | Except.error e => Except.error e
        | Except.ok r2 => Except.ok (r.1 ++ r2.1, r2.2)) = _
  rw [h1]
  show (match closeAll ps s1 with
    | Except.error e => Except.error e
    | Except.ok r2 => Except.ok (evs1 ++ r2.1, r2.2)) = _
  rw [h2]

/-- Closing the top of the stack succeeds, whether by `commit` or by
`rollback`; it pops the top, preserves sinks and counter, emits nothing while
the stack stays non-empty and emits one terminal event at a stack-emptying
close. -/
theorem closeOne_of_top (c : Bool) (t : Nat) (rest : List Nat) (s : State)
    (h : s.stack = t :: rest) :
    ∃ evs s2, closeOne c t s = Except.ok (evs, s2) ∧
      s2.stack = rest ∧ s2.eventManager = s.eventManager ∧
      s2.nextId = s.nextId ∧
      (c = false → s2.needRollback = s.needRollback) ∧
      (rest ≠ [] → evs = []) ∧
      (rest = [] → ∃ k, evs = [⟨s.eventManager t, k⟩] ∧
        (k = EventKind.TransactionCommit ∨ k = EventKind.TransactionRollback) ∧
        (c = false → k = (if s.needRollback t then EventKind.TransactionRollback
          else EventKind.TransactionCommit))) := by
  cases c with
  | false =>
    rw [closeOne_false]
    by_cases hre : rest = []
    · subst hre
      refine ⟨_, _, commit_of_top_outermost t s h, rfl, rfl, rfl, fun _ => rfl,
        fun hc => absurd rfl hc, fun _ => ⟨_, rfl, ?_, fun _ => rfl⟩⟩
      by_cases hr : s.needRollback t = true <;> simp [hr]
    · exact ⟨_, _, commit_of_top_inner t rest s h hre, rfl, rfl, rfl,
        fun _ => rfl, fun _ => rfl, fun hc => absurd hc hre⟩
  | true =>
    rw [closeOne_true,
      show Transaction.rollback t s
        = Transaction.commit t (Transaction.mark_rollback s) from rfl]
    have hms : (Transaction.mark_rollback s).stack = t :: rest := h
    by_cases hre : rest = []
    · subst hre
      refine ⟨_, _, commit_of_top_outermost t (Transaction.mark_rollback s) hms,
        rfl, rfl, rfl, fun hc => by simp at hc, fun hc => absurd rfl hc,
        fun _ => ⟨EventKind.TransactionRollback, ?_, Or.inr rfl,
          fun hc => by simp at hc⟩⟩
      simp [Transaction.mark_rollback, h]
    · exact ⟨_, _, commit_of_top_inner t rest (Transaction.mark_rollback s) hms hre,
        rfl, rfl, rfl, fun hc => by simp at hc, fun _ => rfl,
        fun hc => absurd hc hre⟩

/-- Closing, in order, exactly the transactions on the stack (each by `commit`
or `rollback`) succeeds, empties the stack, and delivers exactly one terminal
event — to the shared sink, of kind Commit or Rollback — produced by the final,
stack-emptying close; every inner close delivers nothing. -/
theorem closeAll_ok_of_stack (ts : List (Bool × Nat)) : ∀ (s : State) (em : Nat),
    s.stack = ts.map Prod.snd →
    (∀ x ∈ s.stack, s.eventManager x = em) →
    ∃ evs s2, closeAll ts s = Except.ok (evs, s2) ∧ s2.stack = [] ∧
      (ts = [] → evs = []) ∧
      (ts ≠ [] → ∃ k, evs = [⟨em, k⟩] ∧
        (k = EventKind.TransactionCommit ∨ k = EventKind.TransactionRollback)) := by
  induction ts with
  | nil =>
    intro s em hst _
    exact ⟨[], s, rfl, by simpa using hst, fun _ => rfl, fun hne => absurd rfl hne⟩
  | cons p ps ih =>
    intro s em hst hem
    obtain ⟨c, t⟩ := p
    have hst' : s.stack = t :: ps.map Prod.snd := hst
    obtain ⟨evs1, s1, hco, hs1st, hs1em, _, _, hinner, houter⟩ :=
      closeOne_of_top c t (ps.map Prod.snd) s hst'
    have hem1 : ∀ x ∈ s1.stack, s1.eventManager x = em := by
      intro x hx
      rw [hs1em]
      refine hem x ?_
      rw [hst']
      exact List.mem_cons_of_mem t (by rwa [hs1st] at hx)
    obtain ⟨evs2, s2, hca, hs2st, hnil2, hne2⟩ :=
      ih s1 em (by rw [hs1st]) hem1
    refine ⟨evs1 ++ evs2, s2, closeAll_step (c, t) ps s s1 evs1 evs2 s2 hco hca,
      hs2st, fun hc => by simp at hc, fun _ => ?_⟩
    by_cases hps : ps = []
    · subst hps
      obtain ⟨k, hevs1, hk, _⟩ := houter rfl
      rw [hem t (by rw [hst']; exact List.mem_cons_self t _)] at hevs1
      exact ⟨k, by rw [hevs1, hnil2 rfl, List.append_nil], hk⟩
    · obtain ⟨k, hevs2, hk⟩ := hne2 hps
      rw [hinner (by simpa using hps), hevs2]
      exact ⟨k, rfl, hk⟩

/-- C1: from an empty stack, a sequence of `n ≥ 1` nested constructions
against one sink followed by strict LIFO closes (each `commit` or `rollback`
per `choices`) delivers exactly one Begin notification in total during the
opens and exactly one terminal notification (Commit or Rollback) in total
during the closes, and empties the stack; inner opens and inner closes deliver
nothing. -/
theorem nested_lifo_emits_one_begin_one_terminal
    (em n : Nat) (choices : List Bool) (s0 : State)
    (hs : s0.stack = []) (hn : n ≠ 0) (hc : choices.length = n) :
    (openN em n s0).2.1 = [⟨em, EventKind.TransactionBegin⟩] ∧
    ∃ k s2,
      closeAll (choices.zip (openN em n s0).1.reverse) (openN em n s0).2.2
          = Except.ok ([⟨em, k⟩], s2) ∧
      (k = EventKind.TransactionCommit ∨ k = EventKind.TransactionRollback) ∧
      s2.stack = [] := by
  refine ⟨openN_events_of_empty em n s0 hs hn, ?_⟩
  have hlen : (openN em n s0).1.reverse.length ≤ choices.length := by
    rw [List.length_reverse, openN_length, hc]
  have hids : (choices.zip (openN em n s0).1.reverse).map Prod.snd
      = (openN em n s0).1.reverse :=
    List.map_snd_zip choices (openN em n s0).1.reverse hlen
  have hstack : (openN em n s0).2.2.stack
      = (choices.zip (openN em n s0).1.reverse).map Prod.snd := by
    rw [hids, openN_stack, hs, List.append_nil]
  have hem : ∀ x ∈ (openN em n s0).2.2.stack,
      (openN em n s0).2.2.eventManager x = em := by
    intro x hx
    rw [openN_stack, hs, List.append_nil, List.mem_reverse] at hx
    rw [openN_eventManager, if_pos hx]
  obtain ⟨evs, s2, hrun, hs2, _, hne⟩ :=
    closeAll_ok_of_stack (choices.zip (openN em n s0).1.reverse)
      (openN em n s0).2.2 em hstack hem
  have hts : choices.zip (openN em n s0).1.reverse ≠ [] := by
    intro hcontra
    have hlz := congrArg List.length hcontra
    rw [List.length_zip, List.length_reverse, openN_length, hc] at hlz
    simp at hlz
    exact hn hlz
  obtain ⟨k, hevs, hk⟩ := hne hts
  exact ⟨k, s2, by rw [hrun, hevs], hk, hs2⟩

/-- Witness for `nested_lifo_emits_one_begin_one_terminal` at depth 2. -/
theorem nested_lifo_emits_one_begin_one_terminal_witness :
    (S0.stack = [] ∧ (2 : Nat) ≠ 0 ∧ ([false, true] : List Bool).length = 2) ∧
    ((openN 3 2 S0).2.1 = [⟨3, EventKind.TransactionBegin⟩] ∧
     ∃ k s2,
       closeAll (([false, true] : List Bool).zip (openN 3 2 S0).1.reverse)
           (openN 3 2 S0).2.2
           = Except.ok ([⟨3, k⟩], s2) ∧
       (k = EventKind.TransactionCommit ∨ k = EventKind.TransactionRollback) ∧
       s2.stack = []) :=
  ⟨⟨rfl, by decide, rfl⟩,
    nested_lifo_emits_one_begin_one_terminal 3 2 [false, true] S0 rfl
      (by decide) rfl⟩

/-- Closing, in order, exactly the transactions on the stack, each by a plain
`commit`, succeeds and delivers one terminal event whose kind is decided by
the `_need_rollback` flag of the LAST transaction closed (the stack bottom);
the flags themselves are never modified. -/
theorem closeAll_commit_only (ts : List Nat) : ∀ (s : State) (em l : Nat),
    s.stack = ts → ts.getLast? = some l →
    (∀ x ∈ ts, s.eventManager x = em) →
    ∃ s2, closeAll (ts.map (fun t => (false, t))) s
        = Except.ok ([⟨em, if s.needRollback l then EventKind.TransactionRollback
            else EventKind.TransactionCommit⟩], s2) ∧
      s2.stack = [] ∧ s2.needRollback = s.needRollback := by
  induction ts with
  | nil =>
    intro s em l _ hl _
    simp at hl
  | cons t ps ih =>
    intro s em l hst hl hem
    by_cases hps : ps = []
    · subst hps
      have hlt : t = l := by simpa using hl
      subst hlt
      refine ⟨{ s with stack := [] }, ?_, rfl, rfl⟩
      simp only [List.map_cons, List.map_nil]
      rw [closeAll_step (false, t) [] s { s with stack := [] } _ [] _
        (by rw [closeOne_false]; exact commit_of_top_outermost t s hst) rfl]
      rw [hem t (List.mem_cons_self t [])]
      simp
    · obtain ⟨p0, ps', rfl⟩ := List.exists_cons_of_ne_nil hps
      have hl' : (p0 :: ps').getLast? = some l := by
        rwa [List.getLast?_cons_cons] at hl
      obtain ⟨s2, hrun, hs2st, hs2nr⟩ :=
        ih { s with stack := p0 :: ps' } em l rfl hl'
          (fun x hx => hem x (List.mem_cons_of_mem t hx))
      refine ⟨s2, ?_, hs2st, hs2nr⟩
      simp only [List.map_cons] at hrun ⊢
      rw [closeAll_step (false, t) ((false, p0) :: ps'.map (fun x => (false, x))) s
        { s with stack := p0 :: ps' } [] _ s2
        (by rw [closeOne_false]; exact commit_of_top_inner t (p0 :: ps') s hst (by simp))
        hrun]
      simp

/-- C2: if `mark_rollback` is called while the stack is non-empty, then
closing the whole chain in LIFO order using only `commit()` on each entry
still delivers a single terminal Rollback notification, never Commit. -/
theorem mark_rollback_forces_terminal_rollback (s : State) (em : Nat)
    (hne : s.stack ≠ [])
    (hem : ∀ x ∈ s.stack, s.eventManager x = em) :
    ∃ s2, closeAll (s.stack.map (fun t => (false, t)))
        (Transaction.mark_rollback s)
        = Except.ok ([⟨em, EventKind.TransactionRollback⟩], s2) ∧
      s2.stack = [] := by
  obtain ⟨l, hl⟩ : ∃ l, s.stack.getLast? = some l := by
    cases hgl : s.stack.getLast? with
    | none => exact absurd (List.getLast?_eq_none_iff.mp hgl) hne
    | some x => exact ⟨x, rfl⟩
  have hlmem : l ∈ s.stack := List.mem_of_mem_getLast? hl
  obtain ⟨s2, hrun, hs2st, _⟩ :=
    closeAll_commit_only s.stack (Transaction.mark_rollback s) em l rfl hl hem
  have hflag : (Transaction.mark_rollback s).needRollback l = true := by
    simp [Transaction.mark_rollback, hlmem]
  rw [hflag] at hrun
  exact ⟨s2, by simpa using hrun, hs2st⟩

/-- A concrete state with two open transactions against sink 3, used by the C2
witness. -/
def cS2 : State :=
  { stack := [1, 0], needRollback := fun _ => false, eventManager := fun _ => 3,
    nextId := 2 }

/-- Witness for `mark_rollback_forces_terminal_rollback` on a depth-2 chain. -/
theorem mark_rollback_forces_terminal_rollback_witness :
    (cS2.stack ≠ [] ∧ ∀ x ∈ cS2.stack, cS2.eventManager x = 3) ∧
    ∃ s2, closeAll (cS2.stack.map (fun t => (false, t)))
        (Transaction.mark_rollback cS2)
        = Except.ok ([⟨3, EventKind.TransactionRollback⟩], s2) ∧
      s2.stack = [] :=
  ⟨⟨by decide, fun x _ => rfl⟩,
    mark_rollback_forces_terminal_rollback cS2 3 (by decide) (fun x _ => rfl)⟩

/-! Lemmas and claims about the listener registry `_SubscribersHandler`. -/

/-- When no registered listener raises, the loop in `handle` invokes every
registered listener once, in order, and no exception escapes. -/
theorem handle_of_no_raise (raises : Nat → Bool) : ∀ subs : List Nat,
    (∀ o ∈ subs, raises o = false) →
    SubscribersHandler.handle raises subs = (subs, none) := by
  intro subs
  induction subs with
  | nil => intro _; rfl
  | cons o rest ih =>
    intro hall
    have ho := hall o (List.mem_cons_self o rest)
    have hrest := ih (fun x hx => hall x (List.mem_cons_of_mem o hx))
    simp [SubscribersHandler.handle, ho, hrest]

/-- When the first raising listener in iteration order is `x`, `handle`
invokes the listeners before `x` and `x` itself, propagates the exception of
`x`, and never reaches the listeners after `x`. -/
theorem handle_of_first_raise (raises : Nat → Bool) :
    ∀ (pre : List Nat) (x : Nat) (post : List Nat),
    (∀ o ∈ pre, raises o = false) → raises x = true →
    SubscribersHandler.handle raises (pre ++ x :: post)
      = (pre ++ [x], some x) := by
  intro pre
  induction pre with
  | nil =>
    intro x post _ hx
    simp [SubscribersHandler.handle, hx]
  | cons p pre' ih =>
    intro x post hpre hx
    have hp := hpre p (List.mem_cons_self p pre')
    have hrec := ih x post (fun o ho => hpre o (List.mem_cons_of_mem p ho)) hx
    simp [SubscribersHandler.handle, hp, hrec]

/-- C8 counterexample: with listeners 1 and 2 registered (in that iteration
order) and listener 1 raising, `handle` invokes listener 1, the exception
propagates, and listener 2 — though currently registered — is never invoked:
delivery does not continue past a failing listener. -/
theorem handle_stops_at_failure_counterexample :
    SubscribersHandler.handle (fun x => x == 1) [1, 2] = ([1], some 1) ∧
    (2 : Nat) ∈ [1, 2] ∧ (2 : Nat) ∉ [1] :=
  ⟨rfl, by decide, by decide⟩

/-- C8 (amended): `handle` iterates the registered listeners in order; when no
listener raises, every currently-registered listener is invoked exactly once
and no exception escapes; when a listener raises, its exception propagates out
of `handle` unmasked, the listeners already reached have been invoked, and the
listeners not yet reached are never invoked. -/
theorem handle_delivery_and_failure (raises : Nat → Bool) (subs : List Nat) :
    ((∀ o ∈ subs, raises o = false) →
      SubscribersHandler.handle raises subs = (subs, none)) ∧
    (∀ pre x post, subs = pre ++ x :: post →
      (∀ o ∈ pre, raises o = false) → raises x = true →
      SubscribersHandler.handle raises subs = (pre ++ [x], some x)) := by
  constructor
  · exact handle_of_no_raise raises subs
  · intro pre x post hsubs hpre hx
    rw [hsubs]
    exact handle_of_first_raise raises pre x post hpre hx

/-- Witness for `handle_delivery_and_failure`: listener 1 of three raises;
listener 0 was invoked, listener 2 was not, the exception escaped. -/
theorem handle_delivery_and_failure_witness :
    (([0, 1, 2] : List Nat) = [0] ++ 1 :: [2] ∧
     (∀ o ∈ ([0] : List Nat), (fun x : Nat => x == 1) o = false) ∧
     (fun x : Nat => x == 1) 1 = true) ∧
    SubscribersHandler.handle (fun x : Nat => x == 1) [0, 1, 2]
      = ([0] ++ [1], some 1) :=
  ⟨⟨rfl, by decide, rfl⟩,
    (handle_delivery_and_failure (fun x : Nat => x == 1) [0, 1, 2]).2
      [0] 1 [2] rfl (by decide) rfl⟩

/-- C9: the listener registry has set semantics: adding a listener twice is
the same as adding it once, the registry stays duplicate-free (so a listener
registered twice is invoked exactly once per `handle` call), and discarding an
unregistered listener is a no-op (the operation is total — no error). -/
theorem subscribers_set_semantics (h : List Nat) (o : Nat)
    (raises : Nat → Bool) (hnd : h.Nodup) :
    SubscribersHandler.add (SubscribersHandler.add h o) o
        = SubscribersHandler.add h o ∧
    (SubscribersHandler.add h o).Nodup ∧
    ((∀ x ∈ SubscribersHandler.add h o, raises x = false) →
      (SubscribersHandler.handle raises (SubscribersHandler.add h o)).1.count o
        = 1) ∧
    (o ∉ h → SubscribersHandler.discard h o = h) := by
  have hmem : o ∈ SubscribersHandler.add h o := by
    unfold SubscribersHandler.add
    by_cases hoh : o ∈ h
    · simp [hoh]
    · simp [hoh]
  have hnd2 : (SubscribersHandler.add h o).Nodup := by
    unfold SubscribersHandler.add
    by_cases hoh : o ∈ h
    · simp [hoh, hnd]
    · simp [hoh, List.nodup_append, hnd]
  refine ⟨?_, hnd2, ?_, ?_⟩
  · have hstep : SubscribersHandler.add (SubscribersHandler.add h o) o
        = if o ∈ SubscribersHandler.add h o then SubscribersHandler.add h o
          else SubscribersHandler.add h o ++ [o] := rfl
    rw [hstep, if_pos hmem]
  · intro hall
    rw [handle_of_no_raise raises (SubscribersHandler.add h o) hall]
    exact List.count_eq_one_of_mem hnd2 hmem
  · intro hoh
    unfold SubscribersHandler.discard
    rw [List.filter_eq_self.mpr]
    intro x hx
    have hxo : x ≠ o := fun he => hoh (he ▸ hx)
    simp [hxo]

/-- Witness for `subscribers_set_semantics` on a concrete registry. -/
theorem subscribers_set_semantics_witness :
    ([4, 6] : List Nat).Nodup ∧
    (SubscribersHandler.add (SubscribersHandler.add [4, 6] 9) 9
        = SubscribersHandler.add [4, 6] 9 ∧
     (SubscribersHandler.add [4, 6] 9).Nodup ∧
     ((∀ x ∈ SubscribersHandler.add [4, 6] 9, (fun _ : Nat => false) x = false) →
       (SubscribersHandler.handle (fun _ : Nat => false)
           (SubscribersHandler.add [4, 6] 9)).1.count 9 = 1) ∧
     (9 ∉ ([4, 6] : List Nat) →
       SubscribersHandler.discard [4, 6] 9 = [4, 6])) :=
  ⟨by decide, subscribers_set_semantics [4, 6] 9 (fun _ => false) (by decide)⟩

/-! Lemmas and the claim about the gesture adapter `TxData`. -/

/-- Closing the top of the stack by `commit` always succeeds and pops exactly
the top. -/
theorem commit_of_top (t : Nat) (rest : List Nat) (s : State)
    (h : s.stack = t :: rest) :
    ∃ evs, Transaction.commit t s = Except.ok (evs, { s with stack := rest }) := by
  by_cases hre : rest = []
  · subst hre
    exact ⟨_, commit_of_top_outermost t s h⟩
  · exact ⟨_, commit_of_top_inner t rest s h hre⟩

/-- `TxData.commit` with no pending begin fails its assertion (returns `none`)
without reaching `Transaction.commit`. -/
theorem txdata_commit_of_empty (d : TxData) (s : State) (h : d.txs = []) :
    TxData.commit d s = none := by
  simp [TxData.commit, h]

/-- Main invariant of the gesture adapter run: if `txs` (in creation order,
reversed) is a prefix of the modelled stack — i.e. `txs` is a suffix of the
python stack, aligned with its top — then a run of gesture signals never
raises a `TransactionError`, and the invariant still holds when the run ends
normally. -/
theorem runTxOps_no_txError (ops : List TxOp) : ∀ (d : TxData) (s : State)
    (base : List Nat), s.stack = d.txs.reverse ++ base →
    (∀ e, runTxOps ops d s ≠ TxRunResult.txError e) ∧
    (∀ d2 s2, runTxOps ops d s = TxRunResult.ok d2 s2 →
      s2.stack = d2.txs.reverse ++ base) := by
  induction ops with
  | nil =>
    intro d s base hinv
    constructor
    · intro e h
      simp [runTxOps] at h
    · intro d2 s2 h
      simp only [runTxOps, TxRunResult.ok.injEq] at h
      rw [← h.1, ← h.2]
      exact hinv
  | cons op ops' ih =>
    intro d s base hinv
    cases op with
    | onBegin em =>
      have hstep : runTxOps (TxOp.onBegin em :: ops') d s
          = runTxOps ops' (TxData.begin d em s).1 (TxData.begin d em s).2.2 := rfl
      have hinv' : (TxData.begin d em s).2.2.stack
          = (TxData.begin d em s).1.txs.reverse ++ base := by
        simp [TxData.begin, Transaction.init, hinv]
      rw [hstep]
      exact ih (TxData.begin d em s).1 (TxData.begin d em s).2.2 base hinv'
    | onEnd =>
      by_cases htxs : d.txs = []
      · have hnone : TxData.commit d s = none := txdata_commit_of_empty d s htxs
        have hstep : runTxOps (TxOp.onEnd :: ops') d s
            = TxRunResult.assertionError := by
          simp [runTxOps, hnone]
        rw [hstep]
        exact ⟨fun e h => by simp at h, fun d2 s2 h => by simp at h⟩
      · obtain ⟨ys, t, htx⟩ : ∃ ys t, d.txs = ys ++ [t] := by
          rcases List.eq_nil_or_concat' d.txs with hnil | ⟨ys, t, hcat⟩
          · exact absurd hnil htxs
          · exact ⟨ys, t, hcat⟩
        have hst : s.stack = t :: (ys.reverse ++ base) := by
          rw [hinv, htx]
          simp
        obtain ⟨evs, hcm⟩ := commit_of_top t (ys.reverse ++ base) s hst
        have hcommitD : TxData.commit d s
            = some (⟨ys⟩, Except.ok (evs, { s with stack := ys.reverse ++ base })) := by
          simp [TxData.commit, htx, hcm]
        have hstep : runTxOps (TxOp.onEnd :: ops') d s
            = runTxOps ops' ⟨ys⟩ { s with stack := ys.reverse ++ base } := by
          simp [runTxOps, hcommitD]
        rw [hstep]
        exact ih ⟨ys⟩ { s with stack := ys.reverse ++ base } base (by simp)

/-- C10: when `TxData.txs` is a suffix of the process-wide stack in the same
order (its reversal a prefix of the modelled stack, aligned with the top),
every `on_end` pops and commits the most recently begun transaction — which is
exactly the stack top — so a run of gesture signals never raises the
out-of-order `TransactionError`, the invariant is maintained through the run,
and `TxData.commit` with no pending begin fails its assertion before ever
reaching `Transaction.commit`. -/
theorem txdata_suffix_invariant (ops : List TxOp) (d : TxData) (s : State)
    (base : List Nat) (hinv : s.stack = d.txs.reverse ++ base) :
    (∀ e, runTxOps ops d s ≠ TxRunResult.txError e) ∧
    (∀ d2 s2, runTxOps ops d s = TxRunResult.ok d2 s2 →
      s2.stack = d2.txs.reverse ++ base) ∧
    (∀ t, d.txs.getLast? = some t → s.stack.head? = some t) ∧
    (d.txs = [] → TxData.commit d s = none) := by
  obtain ⟨h1, h2⟩ := runTxOps_no_txError ops d s base hinv
  refine ⟨h1, h2, ?_, txdata_commit_of_empty d s⟩
  intro t ht
  rw [hinv, List.head?_append_of_ne_nil, List.head?_reverse]
  · exact ht
  · intro hc
    rw [List.reverse_eq_nil_iff] at hc
    simp [hc] at ht

/-- Witness for `txdata_suffix_invariant`: two gesture begin/end pairs from a
fresh state run without any `TransactionError`. -/
theorem txdata_suffix_invariant_witness :
    S0.stack = (⟨[]⟩ : TxData).txs.reverse ++ [] ∧
    ((∀ e, runTxOps [TxOp.onBegin 3, TxOp.onBegin 3, TxOp.onEnd, TxOp.onEnd]
        (⟨[]⟩ : TxData) S0 ≠ TxRunResult.txError e) ∧
     (∀ d2 s2, runTxOps [TxOp.onBegin 3, TxOp.onBegin 3, TxOp.onEnd, TxOp.onEnd]
        (⟨[]⟩ : TxData) S0 = TxRunResult.ok d2 s2 →
        s2.stack = d2.txs.reverse ++ []) ∧
     (∀ t, (⟨[]⟩ : TxData).txs.getLast? = some t → S0.stack.head? = some t) ∧
     ((⟨[]⟩ : TxData).txs = [] → TxData.commit (⟨[]⟩ : TxData) S0 = none)) :=
  ⟨rfl, txdata_suffix_invariant [TxOp.onBegin 3, TxOp.onBegin 3, TxOp.onEnd,
    TxOp.onEnd] ⟨[]⟩ S0 [] rfl⟩

end Gaphor
